import Mathlib

/-!
Verification of `solve_lagrangian_relaxation` from
`examples/decomposition_methods/lagrangian_relaxation.py`.

Modelling choices (shallow embedding):

* Real numbers (numpy floats) are modelled as exact rationals `ℚ`;
  arrays are lists, a matrix is a list of rows.
* `np.argmin` is `argminIdx`: the first index attaining the minimum
  (numpy's documented tie-break is the first occurrence).
* The only non-rational operation of the source, `np.linalg.norm`, is
  used solely in the comparison `subgradient_norm < tolerance`.  Since a
  Euclidean norm is non-negative, `‖g‖ < tol` holds iff
  `0 < tol ∧ ‖g‖² < tol²`, which is exact rational arithmetic; the
  embedding stores that comparison as `norm_lt_tol`.
* Python's `for k in range(max_iter)` with `max_iter = 0` never binds the
  local `x`, so the final `return x, best_lower_bound` raises; the
  embedding returns `none` in that case and `some (x, best)` on a normal
  return.  `best_lower_bound` starts at `-inf`; the accumulator of the
  loop is `none` until the first iteration has run, and
  `max(-inf, b) = b` is the `none` case of `new_best`.
* The loop's state is threaded explicitly: `loop_go` carries the
  remaining fuel, the Python iteration counter `k`, the multiplier
  vector `lambdas`, and the accumulator holding the last subproblem flow
  together with the best bound so far.
-/

namespace LagrangianRelaxation

/-- `num_sources, num_destinations = costs.shape` — number of columns of
the (rectangular) cost matrix. -/
def num_destinations (costs : List (List ℚ)) : ℕ := (costs.headD []).length

/-- `effective_costs = costs[i, :] + lambdas` (elementwise). -/
def effective_costs (costRow lambdas : List ℚ) : List ℚ :=
  List.zipWith (· + ·) costRow lambdas

/-- `np.argmin`: the first index attaining the minimum.  This total
version returns 0 on the empty list, where numpy instead raises
`ValueError`; that error path is modelled separately by `argmin_check`,
and the theorems about the whole solver carry hypotheses
(`0 < num_destinations`, rectangularity) that keep every
effective-cost row non-empty, so the total version is only ever relied
upon where it agrees with numpy. -/
def argminIdx : List ℚ → ℕ
  | [] => 0
  | [_] => 0
  | c :: c2 :: rest =>
      if (c2 :: rest).getD (argminIdx (c2 :: rest)) 0 < c then
        argminIdx (c2 :: rest) + 1
      else 0

/-- `np.argmin` with its error path explicit: `ValueError` on an empty
array (`none`), and the first index attaining the minimum otherwise. -/
def argmin_check : List ℚ → Option ℕ
  | [] => none
  | c :: rest => some (argminIdx (c :: rest))

/-- Row `i` of the subproblem flow `x`: all zeros except that, when the
minimal effective cost is strictly negative, position `best_dest_j`
holds `supply[i]` (source lines 38, 47-51). -/
def flow_row (D : ℕ) (costRow lambdas : List ℚ) (supply_i : ℚ) : List ℚ :=
  if (effective_costs costRow lambdas).getD
      (argminIdx (effective_costs costRow lambdas)) 0 < 0 then
    (List.replicate D 0).set (argminIdx (effective_costs costRow lambdas)) supply_i
  else
    List.replicate D 0

/-- The contribution of row `i` to `total_cost_relaxed`:
`effective_costs[best_dest_j] * x[i, best_dest_j]` (source line 54). -/
def row_contrib (D : ℕ) (costRow lambdas : List ℚ) (supply_i : ℚ) : ℚ :=
  (effective_costs costRow lambdas).getD
      (argminIdx (effective_costs costRow lambdas)) 0 *
    (flow_row D costRow lambdas supply_i).getD
      (argminIdx (effective_costs costRow lambdas)) 0

/-- The Lagrangian subproblem (source lines 38-54): the flow matrix `x`
and `total_cost_relaxed`, built row by row from the cost matrix and the
supply vector. -/
def subproblem (costs : List (List ℚ)) (supply lambdas : List ℚ) :
    List (List ℚ) × ℚ :=
  (List.zipWith (fun row s => flow_row (num_destinations costs) row lambdas s)
      costs supply,
   (List.zipWith (fun row s => row_contrib (num_destinations costs) row lambdas s)
      costs supply).sum)

/-- `np.sum(x, axis=0)`: column sums of the flow matrix. -/
def col_sums (D : ℕ) (x : List (List ℚ)) : List ℚ :=
  x.foldl (fun acc row => List.zipWith (· + ·) acc row) (List.replicate D 0)

/-- `subgradient = np.sum(x, axis=0) - demand` (source line 65). -/
def subgradient_of (D : ℕ) (x : List (List ℚ)) (demand : List ℚ) : List ℚ :=
  List.zipWith (· - ·) (col_sums D x) demand

/-- `np.sum(lambdas * demand)`. -/
def dot_sum (a b : List ℚ) : ℚ := (List.zipWith (· * ·) a b).sum

/-- Sum of squares: the square of the Euclidean norm. -/
def sum_sq (g : List ℚ) : ℚ := (g.map fun v => v * v).sum

/-- `np.linalg.norm(subgradient) < tolerance` (source lines 68-70),
expressed rationally: since the norm is non-negative, `‖g‖ < tol` iff
`0 < tol` and `‖g‖² < tol²`. -/
def norm_lt_tol (g : List ℚ) (tol : ℚ) : Bool :=
  decide (0 < tol) && decide (sum_sq g < tol * tol)

/-- `step_size_scaling = 1.0` (source line 29). -/
def step_size_scaling : ℚ := 1

/-- `lambdas += step_size * subgradient` with
`step_size = step_size_scaling / (k + 1)` (source lines 76-79). -/
def update_lambdas (lambdas g : List ℚ) (k : ℕ) : List ℚ :=
  List.zipWith (fun l gj => l + (step_size_scaling / ((k : ℚ) + 1)) * gj)
    lambdas g

/-- `best_lower_bound = max(best_lower_bound, lagrangian_lower_bound)`
(source line 61); `none` is the initial `-inf`. -/
def new_best : Option (List (List ℚ) × ℚ) → ℚ → ℚ
  | none, b => b
  | some q, b => max q.2 b

/-- The subgradient of one iteration, computed from the current
multipliers. -/
def iter_subgradient (costs : List (List ℚ)) (supply demand lambdas : List ℚ) :
    List ℚ :=
  subgradient_of (num_destinations costs) (subproblem costs supply lambdas).1 demand

/-- `lagrangian_lower_bound = total_cost_relaxed - np.sum(lambdas * demand)`
(source line 58). -/
def dual_bound (costs : List (List ℚ)) (supply demand lambdas : List ℚ) : ℚ :=
  (subproblem costs supply lambdas).2 - dot_sum lambdas demand

/-- The subgradient loop (source lines 34-84).  Arguments after the
problem data: remaining fuel, Python's iteration counter `k`, the
current multipliers, and the accumulator holding the last flow matrix
with the best bound so far (`none` before the first iteration).  The
result pairs the accumulator at exit with the final multipliers. -/
def loop_go (costs : List (List ℚ)) (supply demand : List ℚ) (tol : ℚ) :
    ℕ → ℕ → List ℚ → Option (List (List ℚ) × ℚ) →
      Option (List (List ℚ) × ℚ) × List ℚ
  | 0, _, lambdas, acc => (acc, lambdas)
  | fuel + 1, k, lambdas, acc =>
      if norm_lt_tol (iter_subgradient costs supply demand lambdas) tol then
        (some ((subproblem costs supply lambdas).1,
           new_best acc (dual_bound costs supply demand lambdas)), lambdas)
      else
        loop_go costs supply demand tol fuel (k + 1)
          (update_lambdas lambdas (iter_subgradient costs supply demand lambdas) k)
          (some ((subproblem costs supply lambdas).1,
             new_best acc (dual_bound costs supply demand lambdas)))

/-- `lambdas = np.maximum(lambdas, 0)` (source line 87). -/
def clamp_nonneg (lambdas : List ℚ) : List ℚ := lambdas.map fun v => max v 0

/-- `solve_lagrangian_relaxation` (source lines 4-91): run the loop from
`lambdas = np.zeros(num_destinations)`, clamp the multipliers once after
the loop (the clamped value is dead: only `x, best_lower_bound` are
returned), and return the accumulator — `none` models the unbound-`x`
error of `max_iter = 0`. -/
def solve_lagrangian_relaxation (costs : List (List ℚ)) (supply demand : List ℚ)
    (max_iter : ℕ) (tolerance : ℚ) : Option (List (List ℚ) × ℚ) :=
  let r := loop_go costs supply demand tolerance max_iter 0
    (List.replicate (num_destinations costs) 0) none
  let _lambdas_clamped := clamp_nonneg r.2
  r.1

/-- Variant of `solve_lagrangian_relaxation` with the post-loop clamp
removed (for the refinement claim that the clamp is dead logic). -/
def solve_no_clamp (costs : List (List ℚ)) (supply demand : List ℚ)
    (max_iter : ℕ) (tolerance : ℚ) : Option (List (List ℚ) × ℚ) :=
  (loop_go costs supply demand tolerance max_iter 0
    (List.replicate (num_destinations costs) 0) none).1

/-- The list of dual values (`lagrangian_lower_bound`) of the iterations
the loop actually executes, in order; a mirror of `loop_go` used to state
properties of the bound across iterations. -/
def loop_trace (costs : List (List ℚ)) (supply demand : List ℚ) (tol : ℚ) :
    ℕ → ℕ → List ℚ → List ℚ
  | 0, _, _ => []
  | fuel + 1, k, lambdas =>
      if norm_lt_tol (iter_subgradient costs supply demand lambdas) tol then
        [dual_bound costs supply demand lambdas]
      else
        dual_bound costs supply demand lambdas ::
          loop_trace costs supply demand tol fuel (k + 1)
            (update_lambdas lambdas (iter_subgradient costs supply demand lambdas) k)

/-- Fold step accumulating the best bound: `none` is the initial `-inf`. -/
def obmax : Option ℚ → ℚ → Option ℚ
  | none, b => some b
  | some a, b => some (max a b)

/-- The best lower bound after the first `n` executed iterations
(`none` when `n = 0`, mirroring the initial `-inf`). -/
def best_after (tr : List ℚ) (n : ℕ) : Option ℚ := (tr.take n).foldl obmax none

/-- Structural postcondition on a flow matrix: shape `(S, D)`, at most
one non-zero entry per row, every non-zero entry equal to that row's
full supply. -/
def flow_ok (costs : List (List ℚ)) (supply : List ℚ) (x : List (List ℚ)) : Prop :=
  x.length = costs.length ∧
  (∀ row ∈ x, row.length = num_destinations costs) ∧
  (∀ i j, i < x.length → j < num_destinations costs →
    (x.getD i []).getD j 0 ≠ 0 →
      (x.getD i []).getD j 0 = supply.getD i 0 ∧
      ∀ t, t < num_destinations costs → t ≠ j → (x.getD i []).getD t 0 = 0)

/-- The three input arrays together with the multiplier array: the store
of the state-threaded rendering of the solver, used to express that the
inputs are never written. -/
structure SolveState where
  costs : List (List ℚ)
  supply : List ℚ
  demand : List ℚ
  lambdas : List ℚ

/-- State-threaded rendering of the loop: every array the source writes
is a field of the store; the only write of the loop body is
`lambdas += step_size * subgradient`, which updates the `lambdas` field
and no other. -/
def loop_go_st (tol : ℚ) :
    ℕ → ℕ → SolveState → Option (List (List ℚ) × ℚ) →
      Option (List (List ℚ) × ℚ) × SolveState
  | 0, _, st, acc => (acc, st)
  | fuel + 1, k, st, acc =>
      if norm_lt_tol (iter_subgradient st.costs st.supply st.demand st.lambdas) tol then
        (some ((subproblem st.costs st.supply st.lambdas).1,
           new_best acc (dual_bound st.costs st.supply st.demand st.lambdas)), st)
      else
        loop_go_st tol fuel (k + 1)
          { st with lambdas := update_lambdas st.lambdas (iter_subgradient st.costs st.supply st.demand st.lambdas) k }
          (some ((subproblem st.costs st.supply st.lambdas).1,
             new_best acc (dual_bound st.costs st.supply st.demand st.lambdas)))

/-- State-threaded rendering of `solve_lagrangian_relaxation`: the
post-loop clamp is the one remaining write (again to `lambdas` only);
the final store is returned alongside the result. -/
def solve_st (costs : List (List ℚ)) (supply demand : List ℚ)
    (max_iter : ℕ) (tolerance : ℚ) :
    Option (List (List ℚ) × ℚ) × SolveState :=
  let r := loop_go_st tolerance max_iter 0
    { costs := costs, supply := supply, demand := demand,
      lambdas := List.replicate (num_destinations costs) 0 } none
  (r.1, { r.2 with lambdas := clamp_nonneg r.2.lambdas })

/-! ### Basic list lemmas -/

theorem getD_replicate0 (n t : ℕ) : (List.replicate n (0 : ℚ)).getD t 0 = 0 := by
  rw [List.getD_eq_getElem?_getD, List.getElem?_replicate]
  split <;> rfl

theorem getD_set_replicate (D j t : ℕ) (s : ℚ) :
    ((List.replicate D (0 : ℚ)).set j s).getD t 0
      = if t = j ∧ j < D then s else 0 := by
  rw [List.getD_eq_getElem?_getD, List.getElem?_set]
  by_cases h1 : j = t
  · subst h1
    by_cases h2 : j < D <;>
      simp [h2, List.length_replicate, List.getElem?_replicate]
  · have h1t : ¬ (t = j ∧ j < D) := fun hc => h1 hc.1.symm
    simp [h1, h1t, List.getElem?_replicate]
    split <;> rfl

theorem getD_mem {α : Type} {l : List α} {j : ℕ} {d : α} (h : j < l.length) :
    l.getD j d ∈ l := by
  rw [List.getD_eq_getElem?_getD, List.getElem?_eq_getElem h]
  exact List.getElem_mem h

theorem getD_zipWith {α β γ : Type} (f : α → β → γ) (as : List α) (bs : List β)
    (i : ℕ) (h1 : i < as.length) (h2 : i < bs.length) (da : α) (db : β) (dc : γ) :
    (List.zipWith f as bs).getD i dc = f (as.getD i da) (bs.getD i db) := by
  have hlen : i < (List.zipWith f as bs).length := by
    rw [List.length_zipWith]; exact lt_min h1 h2
  rw [List.getD_eq_getElem?_getD, List.getElem?_eq_getElem hlen,
    List.getD_eq_getElem?_getD, List.getElem?_eq_getElem h1,
    List.getD_eq_getElem?_getD, List.getElem?_eq_getElem h2]
  simp [List.getElem_zipWith]

theorem mem_zipWith {α β γ : Type} {f : α → β → γ} :
    ∀ {as : List α} {bs : List β} {c : γ}, c ∈ List.zipWith f as bs →
      ∃ a b, a ∈ as ∧ b ∈ bs ∧ c = f a b := by
  intro as
  induction as with
  | nil => intro bs c hc; simp at hc
  | cons a as ih =>
      intro bs c hc
      cases bs with
      | nil => simp at hc
      | cons b bs =>
          rcases List.mem_cons.mp hc with rfl | hc'
          · exact ⟨a, b, List.mem_cons_self a as, List.mem_cons_self b bs, rfl⟩
          · rcases ih hc' with ⟨a0, b0, ha0, hb0, hab⟩
            exact ⟨a0, b0, List.mem_cons_of_mem a ha0, List.mem_cons_of_mem b hb0, hab⟩

theorem zipWith_add_replicate_zero :
    ∀ (l : List ℚ) (n : ℕ),
      List.zipWith (· + ·) l (List.replicate n (0 : ℚ)) = l.take n
  | [], _ => by simp
  | _ :: _, 0 => by simp
  | c :: l, n + 1 => by
      simp [List.replicate_succ, zipWith_add_replicate_zero l n]

theorem sum_zipWith_zero (f : List ℚ → ℚ → ℚ) :
    ∀ (l1 : List (List ℚ)) (l2 : List ℚ), (∀ a ∈ l1, ∀ b, f a b = 0) →
      (List.zipWith f l1 l2).sum = 0
  | [], _, _ => by simp
  | _ :: _, [], _ => by simp
  | a :: l1, b :: l2, h => by
      have hrest := sum_zipWith_zero f l1 l2 (fun a0 ha0 b0 => h a0 (List.mem_cons_of_mem a ha0) b0)
      simp [hrest, h a (List.mem_cons_self a l1) b]

theorem dot_sum_replicate_zero :
    ∀ (n : ℕ) (l : List ℚ), dot_sum (List.replicate n 0) l = 0
  | 0, _ => by simp [dot_sum]
  | _ + 1, [] => by simp [dot_sum]
  | n + 1, b :: l => by
      have := dot_sum_replicate_zero n l
      simp [dot_sum, List.replicate_succ] at this ⊢
      exact this

/-! ### Correctness of `argminIdx`: first index attaining the minimum -/

theorem argminIdx_cons_cons (c c2 : ℚ) (rest : List ℚ) :
    argminIdx (c :: c2 :: rest)
      = if (c2 :: rest).getD (argminIdx (c2 :: rest)) 0 < c then
          argminIdx (c2 :: rest) + 1
        else 0 := rfl

theorem argminIdx_lt : ∀ (l : List ℚ), 0 < l.length → argminIdx l < l.length
  | [], h => absurd h (by simp)
  | [_], _ => by simp [argminIdx]
  | c :: c2 :: rest, _ => by
      have ih := argminIdx_lt (c2 :: rest) (by simp)
      rw [argminIdx_cons_cons]
      by_cases h : (c2 :: rest).getD (argminIdx (c2 :: rest)) 0 < c
      · rw [if_pos h]
        simp only [List.length_cons] at ih ⊢
        omega
      · rw [if_neg h]
        simp

theorem argminIdx_min :
    ∀ (l : List ℚ) (t : ℕ), t < l.length →
      l.getD (argminIdx l) 0 ≤ l.getD t 0
  | [], t, ht => absurd ht (by simp)
  | [c], t, ht => by
      cases t with
      | zero => simp [argminIdx]
      | succ t' => simp at ht
  | c :: c2 :: rest, t, ht => by
      rw [argminIdx_cons_cons]
      by_cases h : (c2 :: rest).getD (argminIdx (c2 :: rest)) 0 < c
      · rw [if_pos h]
        rw [List.getD_cons_succ]
        cases t with
        | zero => simpa using le_of_lt h
        | succ t' =>
            rw [List.getD_cons_succ]
            exact argminIdx_min (c2 :: rest) t' (by simpa using ht)
      · rw [if_neg h, List.getD_cons_zero]
        cases t with
        | zero => simp
        | succ t' =>
            rw [List.getD_cons_succ]
            have hle := argminIdx_min (c2 :: rest) t' (by simpa using ht)
            exact le_trans (not_lt.mp h) hle

theorem argminIdx_first :
    ∀ (l : List ℚ) (t : ℕ), t < argminIdx l →
      l.getD (argminIdx l) 0 < l.getD t 0
  | [], t, ht => absurd ht (by simp [argminIdx])
  | [_], t, ht => absurd ht (by simp [argminIdx])
  | c :: c2 :: rest, t, ht => by
      rw [argminIdx_cons_cons] at ht ⊢
      by_cases h : (c2 :: rest).getD (argminIdx (c2 :: rest)) 0 < c
      · rw [if_pos h] at ht ⊢
        rw [List.getD_cons_succ]
        cases t with
        | zero => simpa using h
        | succ t' =>
            rw [List.getD_cons_succ]
            exact argminIdx_first (c2 :: rest) t' (by omega)
      · rw [if_neg h] at ht
        omega

/-! ### Accumulated best bound: `obmax` folds -/

theorem foldl_obmax_ge :
    ∀ (l : List ℚ) (a b : ℚ), l.foldl obmax (some a) = some b → a ≤ b
  | [], a, b, h => le_of_eq (Option.some.inj h)
  | d :: l, a, b, h => by
      have h' : l.foldl obmax (some (max a d)) = some b := by
        simpa [obmax] using h
      exact le_trans (le_max_left a d) (foldl_obmax_ge l (max a d) b h')

theorem foldl_obmax_mem :
    ∀ (l : List ℚ) (o : Option ℚ) (b : ℚ),
      l.foldl obmax o = some b → ∀ d ∈ l, d ≤ b
  | [], _, _, _ => by simp
  | e :: l, o, b, h => by
      intro d hd
      rcases List.mem_cons.mp hd with rfl | hd'
      · cases o with
        | none =>
            have h' : l.foldl obmax (some d) = some b := by simpa [obmax] using h
            exact foldl_obmax_ge l d b h'
        | some a =>
            have h' : l.foldl obmax (some (max a d)) = some b := by
              simpa [obmax] using h
            exact le_trans (le_max_right a d) (foldl_obmax_ge l (max a d) b h')
      · exact foldl_obmax_mem l (obmax o e) b (by simpa using h) d hd'

theorem best_after_mono (tr : List ℚ) (n : ℕ) (a a' : ℚ)
    (h1 : best_after tr n = some a) (h2 : best_after tr (n + 1) = some a') :
    a ≤ a' := by
  unfold best_after at h1 h2
  rw [List.take_succ] at h2
  cases htr : tr[n]? with
  | none =>
      rw [htr] at h2
      simp at h2
      rw [h1] at h2
      exact le_of_eq (Option.some.inj h2)
  | some d =>
      rw [htr] at h2
      rw [List.foldl_append, h1] at h2
      simp [obmax] at h2
      rw [← h2]
      exact le_max_left a d

/-! ### The loop versus its trace of dual values -/

theorem loop_go_fst_snd (costs : List (List ℚ)) (supply demand : List ℚ) (tol : ℚ) :
    ∀ (fuel k : ℕ) (lambdas : List ℚ) (acc : Option (List (List ℚ) × ℚ)),
      ((loop_go costs supply demand tol fuel k lambdas acc).1).map Prod.snd
        = (loop_trace costs supply demand tol fuel k lambdas).foldl obmax
            (acc.map Prod.snd) := by
  intro fuel
  induction fuel with
  | zero => intro k lambdas acc; rfl
  | succ fuel ih =>
      intro k lambdas acc
      by_cases h : norm_lt_tol (iter_subgradient costs supply demand lambdas) tol
      · cases acc <;> simp [loop_go, loop_trace, h, new_best, obmax]
      · cases acc <;> simp [loop_go, loop_trace, h, ih, new_best, obmax]

theorem loop_go_isSome (costs : List (List ℚ)) (supply demand : List ℚ) (tol : ℚ) :
    ∀ (fuel k : ℕ) (lambdas : List ℚ) (p : List (List ℚ) × ℚ),
      ((loop_go costs supply demand tol fuel k lambdas (some p)).1).isSome = true := by
  intro fuel
  induction fuel with
  | zero => intro k lambdas p; rfl
  | succ fuel ih =>
      intro k lambdas p
      by_cases h : norm_lt_tol (iter_subgradient costs supply demand lambdas) tol
      · simp [loop_go, h]
      · simp only [loop_go, if_neg h]
        exact ih _ _ _

/-! ### Structure of the subproblem flow -/

theorem flow_row_length (D : ℕ) (row lambdas : List ℚ) (s : ℚ) :
    (flow_row D row lambdas s).length = D := by
  unfold flow_row
  split <;> simp

theorem flow_row_entries (D : ℕ) (row lambdas : List ℚ) (s : ℚ) (j : ℕ)
    (hnz : (flow_row D row lambdas s).getD j 0 ≠ 0) :
    (flow_row D row lambdas s).getD j 0 = s ∧
      ∀ t, t ≠ j → (flow_row D row lambdas s).getD t 0 = 0 := by
  unfold flow_row at hnz ⊢
  split at hnz
  case isTrue hneg =>
      rw [if_pos hneg]
      rw [getD_set_replicate] at hnz
      by_cases hc : j = argminIdx (effective_costs row lambdas) ∧
          argminIdx (effective_costs row lambdas) < D
      · constructor
        · rw [getD_set_replicate, if_pos hc]
        · intro t ht
          rw [getD_set_replicate, if_neg ?_]
          intro hc'
          exact ht (hc'.1.trans hc.1.symm)
      · exact absurd (if_neg hc) hnz
  case isFalse hpos =>
      rw [getD_replicate0] at hnz
      exact absurd rfl hnz

theorem subproblem_rows_length (costs : List (List ℚ)) (supply lambdas : List ℚ) :
    ∀ row ∈ (subproblem costs supply lambdas).1,
      row.length = num_destinations costs := by
  intro row hrow
  rcases mem_zipWith hrow with ⟨a, b, _, _, rfl⟩
  exact flow_row_length _ _ _ _

theorem subproblem_flow_ok (costs : List (List ℚ)) (supply lambdas : List ℚ)
    (hS : supply.length = costs.length) :
    flow_ok costs supply (subproblem costs supply lambdas).1 := by
  refine ⟨?_, subproblem_rows_length costs supply lambdas, ?_⟩
  · simp [subproblem, List.length_zipWith, hS]
  · intro i j hi hj hnz
    have hiC : i < costs.length := by
      simpa [subproblem, List.length_zipWith, hS] using hi
    have hiS : i < supply.length := by rw [hS]; exact hiC
    have hrow : (subproblem costs supply lambdas).1.getD i []
        = flow_row (num_destinations costs) (costs.getD i []) lambdas
            (supply.getD i 0) := by
      exact getD_zipWith _ costs supply i hiC hiS [] 0 []
    rw [hrow] at hnz ⊢
    rcases flow_row_entries _ _ _ _ _ hnz with ⟨hval, hzero⟩
    exact ⟨hval, fun t _ ht => hzero t ht⟩

theorem loop_go_flow_ok (costs : List (List ℚ)) (supply demand : List ℚ) (tol : ℚ)
    (hS : supply.length = costs.length) :
    ∀ (fuel k : ℕ) (lambdas : List ℚ) (acc : Option (List (List ℚ) × ℚ)),
      (∀ p, acc = some p → flow_ok costs supply p.1) →
      ∀ x b, (loop_go costs supply demand tol fuel k lambdas acc).1 = some (x, b) →
        flow_ok costs supply x := by
  intro fuel
  induction fuel with
  | zero =>
      intro k lambdas acc hacc x b hx
      exact hacc (x, b) hx
  | succ fuel ih =>
      intro k lambdas acc hacc x b hx
      by_cases h : norm_lt_tol (iter_subgradient costs supply demand lambdas) tol
      · simp only [loop_go, if_pos h] at hx
        have hx1 : (subproblem costs supply lambdas).1 = x :=
          congrArg Prod.fst (Option.some.inj hx)
        rw [← hx1]
        exact subproblem_flow_ok costs supply lambdas hS
      · simp only [loop_go, if_neg h] at hx
        refine ih _ _ _ ?_ x b hx
        intro p hp
        have hp' : ((subproblem costs supply lambdas).1,
            new_best acc (dual_bound costs supply demand lambdas)) = p :=
          Option.some.inj hp
        rw [← hp']
        exact subproblem_flow_ok costs supply lambdas hS

/-! ### The state-threaded loop never writes the input arrays -/

theorem loop_go_st_frame (tol : ℚ) :
    ∀ (fuel k : ℕ) (st : SolveState) (acc : Option (List (List ℚ) × ℚ)),
      (loop_go_st tol fuel k st acc).2.costs = st.costs ∧
      (loop_go_st tol fuel k st acc).2.supply = st.supply ∧
      (loop_go_st tol fuel k st acc).2.demand = st.demand ∧
      (loop_go_st tol fuel k st acc).1
        = (loop_go st.costs st.supply st.demand tol fuel k st.lambdas acc).1 := by
  intro fuel
  induction fuel with
  | zero => intro k st acc; exact ⟨rfl, rfl, rfl, rfl⟩
  | succ fuel ih =>
      intro k st acc
      by_cases h : norm_lt_tol (iter_subgradient st.costs st.supply st.demand st.lambdas) tol
      · simp [loop_go_st, loop_go, h]
      · simp only [loop_go_st, loop_go, if_neg h]
        exact ih _ _ _

/-! ### The first iteration under non-negative costs -/

theorem row_contrib_nonneg_zero (D : ℕ) (row : List ℚ) (n : ℕ) (s : ℚ)
    (h : ∀ c ∈ row, 0 ≤ c) :
    row_contrib D row (List.replicate n 0) s = 0 := by
  have he : effective_costs row (List.replicate n 0) = row.take n :=
    zipWith_add_replicate_zero row n
  have hnneg : ¬ (effective_costs row (List.replicate n 0)).getD
      (argminIdx (effective_costs row (List.replicate n 0))) 0 < 0 := by
    rw [not_lt, he]
    by_cases hl : argminIdx (row.take n) < (row.take n).length
    · exact h _ (List.take_subset n row (getD_mem hl))
    · rw [List.getD_eq_default _ _ (not_lt.mp hl)]
  unfold row_contrib flow_row
  rw [if_neg hnneg, getD_replicate0, mul_zero]

theorem dual_bound_zero_lambda (costs : List (List ℚ)) (supply demand : List ℚ)
    (n : ℕ) (hcost : ∀ row ∈ costs, ∀ c ∈ row, 0 ≤ c) :
    dual_bound costs supply demand (List.replicate n 0) = 0 := by
  unfold dual_bound
  rw [dot_sum_replicate_zero]
  have htot : (subproblem costs supply (List.replicate n 0)).2 = 0 := by
    unfold subproblem
    exact sum_zipWith_zero _ costs supply
      (fun row hrow s => row_contrib_nonneg_zero _ row n s (hcost row hrow))
  rw [htot]
  ring

theorem foldl_zipWith_add_length (D : ℕ) :
    ∀ (x : List (List ℚ)) (acc : List ℚ), acc.length = D →
      (∀ row ∈ x, row.length = D) →
      (x.foldl (fun acc row => List.zipWith (· + ·) acc row) acc).length = D := by
  intro x
  induction x with
  | nil => intro acc hacc _; simpa using hacc
  | cons row x ih =>
      intro acc hacc hrows
      simp only [List.foldl_cons]
      refine ih _ ?_ (fun r hr => hrows r (List.mem_cons_of_mem row hr))
      rw [List.length_zipWith, hacc, hrows row (List.mem_cons_self row x)]
      exact min_self D

theorem col_sums_length (D : ℕ) (x : List (List ℚ))
    (hrows : ∀ row ∈ x, row.length = D) : (col_sums D x).length = D :=
  foldl_zipWith_add_length D x _ (List.length_replicate D 0) hrows

/-! ### Claim theorems -/

/-- C1: For every source row `i` of every iteration's subproblem (the
multipliers are universally quantified, so this covers every iteration),
with effective cost `e = cost[i][·] + λ` and `j` the lowest-index
minimizer of `e`, the flow row is all zeros except that position `j`
holds `supply[i]` exactly when `e[j] < 0`; whenever `0 ≤ e[j]`
(including the boundary case `e[j] = 0`) the entire row stays zero. -/
theorem subproblem_row_policy
    (costs : List (List ℚ)) (supply lambdas : List ℚ) (i : ℕ)
    (hrect : ∀ row ∈ costs, row.length = num_destinations costs)
    (hlam : lambdas.length = num_destinations costs)
    (hpos : 0 < num_destinations costs)
    (hi : i < costs.length) (hiS : i < supply.length)
    (e : List ℚ) (he : e = effective_costs (costs.getD i []) lambdas)
    (j : ℕ) (hj : j = argminIdx e) :
    (subproblem costs supply lambdas).1.getD i []
        = flow_row (num_destinations costs) (costs.getD i []) lambdas
            (supply.getD i 0)
    ∧ j < num_destinations costs
    ∧ (∀ t, t < num_destinations costs → e.getD j 0 ≤ e.getD t 0)
    ∧ (∀ t, t < j → e.getD j 0 < e.getD t 0)
    ∧ (e.getD j 0 < 0 →
        (flow_row (num_destinations costs) (costs.getD i []) lambdas
            (supply.getD i 0)).getD j 0 = supply.getD i 0
        ∧ ∀ t, t ≠ j →
            (flow_row (num_destinations costs) (costs.getD i []) lambdas
              (supply.getD i 0)).getD t 0 = 0)
    ∧ (0 ≤ e.getD j 0 →
        flow_row (num_destinations costs) (costs.getD i []) lambdas
            (supply.getD i 0)
          = List.replicate (num_destinations costs) 0) := by
  subst he
  subst hj
  have hrowlen : (costs.getD i []).length = num_destinations costs :=
    hrect _ (getD_mem hi)
  have hlen : (effective_costs (costs.getD i []) lambdas).length
      = num_destinations costs := by
    unfold effective_costs
    rw [List.length_zipWith, hrowlen, hlam]
    exact min_self _
  have hjD : argminIdx (effective_costs (costs.getD i []) lambdas)
      < num_destinations costs := by
    rw [← hlen]
    exact argminIdx_lt _ (by rw [hlen]; exact hpos)
  refine ⟨?_, hjD, ?_, ?_, ?_, ?_⟩
  · exact getD_zipWith _ costs supply i hi hiS [] 0 []
  · intro t ht
    exact argminIdx_min _ t (by rw [hlen]; exact ht)
  · intro t ht
    exact argminIdx_first _ t ht
  · intro hneg
    unfold flow_row
    rw [if_pos hneg]
    constructor
    · rw [getD_set_replicate, if_pos ⟨rfl, hjD⟩]
    · intro t ht
      rw [getD_set_replicate, if_neg (fun hc => ht hc.1)]
  · intro hge
    unfold flow_row
    rw [if_neg (not_lt.mpr hge)]

/-- C1 witness: concrete instance with cost row `[3, 1]`, multipliers
`[0, -2]`, supply `7`: the minimal effective cost is `-1 < 0` at index
`1`, so the whole supply ships there. -/
theorem subproblem_row_policy_witness :
    (subproblem [[3, 1]] [7] [0, -2]).1.getD 0 []
        = flow_row 2 [3, 1] [0, -2] 7
    ∧ 1 < 2
    ∧ (∀ t, t < 2 → ([3, -1] : List ℚ).getD 1 0 ≤ ([3, -1] : List ℚ).getD t 0)
    ∧ (∀ t, t < 1 → ([3, -1] : List ℚ).getD 1 0 < ([3, -1] : List ℚ).getD t 0)
    ∧ (([3, -1] : List ℚ).getD 1 0 < 0 →
        (flow_row 2 [3, 1] [0, -2] 7).getD 1 0 = 7
        ∧ ∀ t, t ≠ 1 → (flow_row 2 [3, 1] [0, -2] 7).getD t 0 = 0)
    ∧ (0 ≤ ([3, -1] : List ℚ).getD 1 0 →
        flow_row 2 [3, 1] [0, -2] 7 = List.replicate 2 0) :=
  subproblem_row_policy [[3, 1]] [7] [0, -2] 0 (by decide) (by decide) (by decide)
    (by decide) (by decide) [3, -1] (by with_unfolding_all rfl) 1
    (by with_unfolding_all rfl)

/-- C5: Scenario B, `cost = [[5]]`, `supply = [10]`, `demand = [10]`,
default configuration: the solver returns `best_lower_bound = 50` and
`flow_matrix = [[10]]`; the loop executes exactly two iterations
(dual values `0` then `50`, so it converges at iteration index 1), and
the subgradient of the final flow is zero. -/
theorem scenario_b_exact :
    solve_lagrangian_relaxation [[5]] [10] [10] 1000 (1 / 100000)
        = some ([[10]], 50)
    ∧ loop_trace [[5]] [10] [10] (1 / 100000) 1000 0
        (List.replicate (num_destinations [[5]]) 0) = [0, 50]
    ∧ subgradient_of (num_destinations [[5]]) [[10]] [10] = [0] := by
  refine ⟨?_, ?_, ?_⟩ <;> with_unfolding_all rfl

/-- C7: The post-loop clamp of the multipliers to non-negative values
has no effect on either returned value: the solver agrees with the
variant that omits the clamp, on every input. -/
theorem clamp_is_noop (costs : List (List ℚ)) (supply demand : List ℚ)
    (max_iter : ℕ) (tolerance : ℚ) :
    solve_lagrangian_relaxation costs supply demand max_iter tolerance
      = solve_no_clamp costs supply demand max_iter tolerance := rfl

/-- C3: The best lower bound starts at `-inf` (the empty accumulator),
is updated after each iteration to the maximum of its previous value and
that iteration's dual value, never decreases across successive
iterations, and the value returned is the best over all executed
iterations, not merely the last iteration's bound. -/
theorem best_bound_monotone
    (costs : List (List ℚ)) (supply demand : List ℚ) (max_iter : ℕ) (tol : ℚ)
    (x : List (List ℚ)) (b : ℚ) (tr : List ℚ)
    (htr : tr = loop_trace costs supply demand tol max_iter 0
        (List.replicate (num_destinations costs) 0))
    (hx : solve_lagrangian_relaxation costs supply demand max_iter tol
        = some (x, b)) :
    tr.foldl obmax none = some b
    ∧ (∀ n a a', best_after tr n = some a → best_after tr (n + 1) = some a' →
        a ≤ a')
    ∧ (∀ d ∈ tr, d ≤ b) := by
  subst htr
  have hb := loop_go_fst_snd costs supply demand tol max_iter 0
      (List.replicate (num_destinations costs) 0) none
  have hx' : (loop_go costs supply demand tol max_iter 0
      (List.replicate (num_destinations costs) 0) none).1 = some (x, b) := hx
  rw [hx'] at hb
  simp only [Option.map_some', Option.map_none'] at hb
  refine ⟨hb.symm, fun n a a' h1 h2 => best_after_mono _ n a a' h1 h2, ?_⟩
  exact foldl_obmax_mem _ _ _ hb.symm

/-- C3 witness: on Scenario B the executed dual values are `[0, 50]`;
the returned bound `50` is their running maximum, which is monotone. -/
theorem best_bound_monotone_witness :
    ([0, 50] : List ℚ).foldl obmax none = some 50
    ∧ (∀ n a a', best_after [0, 50] n = some a →
        best_after [0, 50] (n + 1) = some a' → a ≤ a')
    ∧ (∀ d ∈ ([0, 50] : List ℚ), d ≤ 50) :=
  best_bound_monotone [[5]] [10] [10] 1000 (1 / 100000) [[10]] 50 [0, 50]
    (by with_unfolding_all rfl) (by with_unfolding_all rfl)

/-- C9: With an entirely non-negative cost matrix and `max_iter ≥ 1`,
the returned best lower bound is non-negative: in the first iteration
the multipliers are all zero, so no effective cost is strictly negative,
nothing ships, the dual value is exactly `0`, and it is immediately
recorded as the best bound, below which the result can never fall. -/
theorem nonneg_costs_lower_bound
    (costs : List (List ℚ)) (supply demand : List ℚ) (max_iter : ℕ) (tol : ℚ)
    (hcost : ∀ row ∈ costs, ∀ c ∈ row, 0 ≤ c)
    (hmi : 1 ≤ max_iter)
    (x : List (List ℚ)) (b : ℚ)
    (hx : solve_lagrangian_relaxation costs supply demand max_iter tol
        = some (x, b)) :
    0 ≤ b := by
  cases max_iter with
  | zero => exact absurd hmi (by simp)
  | succ m =>
      have hx' : (loop_go costs supply demand tol (m + 1) 0
          (List.replicate (num_destinations costs) 0) none).1 = some (x, b) := hx
      have hd0 : dual_bound costs supply demand
          (List.replicate (num_destinations costs) 0) = 0 :=
        dual_bound_zero_lambda costs supply demand _ hcost
      by_cases h : norm_lt_tol (iter_subgradient costs supply demand
          (List.replicate (num_destinations costs) 0)) tol
      · simp only [loop_go, if_pos h] at hx'
        have hsnd : new_best none (dual_bound costs supply demand
            (List.replicate (num_destinations costs) 0)) = b :=
          congrArg Prod.snd (Option.some.inj hx')
        rw [new_best, hd0] at hsnd
        rw [← hsnd]
      · simp only [loop_go, if_neg h] at hx'
        have hmap := loop_go_fst_snd costs supply demand tol m 1
          (update_lambdas (List.replicate (num_destinations costs) 0)
            (iter_subgradient costs supply demand
              (List.replicate (num_destinations costs) 0)) 0)
          (some ((subproblem costs supply
              (List.replicate (num_destinations costs) 0)).1,
            new_best none (dual_bound costs supply demand
              (List.replicate (num_destinations costs) 0))))
        rw [hx'] at hmap
        simp only [Option.map_some', Option.map_none'] at hmap
        rw [new_best, hd0] at hmap
        exact foldl_obmax_ge _ 0 b hmap.symm

/-- C9 witness: a 2×2 all-positive cost matrix with one iteration:
the returned bound is `0 ≥ 0`. -/
theorem nonneg_costs_lower_bound_witness : (0 : ℚ) ≤ 0 :=
  nonneg_costs_lower_bound [[1, 2], [3, 4]] [5, 6] [7, 8] 1 1 (by decide)
    (by decide) [[0, 0], [0, 0]] 0 (by with_unfolding_all rfl)

theorem solve_isSome_of_succ
    (costs : List (List ℚ)) (supply demand : List ℚ) (m : ℕ) (tol : ℚ) :
    (solve_lagrangian_relaxation costs supply demand (m + 1) tol).isSome
      = true := by
  show ((loop_go costs supply demand tol (m + 1) 0
      (List.replicate (num_destinations costs) 0) none).1).isSome = true
  by_cases h : norm_lt_tol (iter_subgradient costs supply demand
      (List.replicate (num_destinations costs) 0)) tol
  · simp [loop_go, h]
  · simp only [loop_go, if_neg h]
    exact loop_go_isSome costs supply demand tol m 1 _ _

/-- C10 counterexample: a cost matrix of numpy shape `(1, 0)` with
`supply = [5]`, `demand = []` has matching shapes and `max_iter = 1 ≥ 1`,
yet the program is not total there: the first iteration evaluates
`np.argmin` on the empty effective-cost row of source 0, which raises
`ValueError` (the `none` of `argmin_check`), so no `(flow, bound)` pair
is ever returned — refuting the claim's universal as stated. -/
theorem totality_counterexample :
    ([5] : List ℚ).length = ([[]] : List (List ℚ)).length
    ∧ ([] : List ℚ).length = num_destinations [[]]
    ∧ 1 ≤ 1
    ∧ argmin_check (effective_costs (([[]] : List (List ℚ)).getD 0 [])
        (List.replicate (num_destinations [[]]) 0)) = none :=
  ⟨rfl, rfl, le_refl 1, rfl⟩

/-- C10 amended: For matching shapes with at least one destination (so
`np.argmin` is never applied to an empty effective-cost row) and
`max_iter ≥ 1`, the solver is total: the loop body runs at least once,
the returned flow matrix is defined, and a `(flow, bound)` pair is
returned; with `max_iter = 0` the flow variable referenced at the
`return` statement is never bound, modelled by the `none` result. -/
theorem solve_totality
    (costs : List (List ℚ)) (supply demand : List ℚ) (max_iter : ℕ) (tol : ℚ)
    (_hrect : ∀ row ∈ costs, row.length = num_destinations costs)
    (_hS : supply.length = costs.length)
    (_hD : demand.length = num_destinations costs)
    (_hpos : 0 < num_destinations costs)
    (hmi : 1 ≤ max_iter) :
    (solve_lagrangian_relaxation costs supply demand max_iter tol).isSome = true
    ∧ solve_lagrangian_relaxation costs supply demand 0 tol = none := by
  refine ⟨?_, rfl⟩
  cases max_iter with
  | zero => exact absurd hmi (by simp)
  | succ m => exact solve_isSome_of_succ costs supply demand m tol

/-- C10 witness. -/
theorem solve_totality_witness :
    (solve_lagrangian_relaxation [[1]] [2] [3] 1 1).isSome = true
    ∧ solve_lagrangian_relaxation [[1]] [2] [3] 0 1 = none :=
  solve_totality [[1]] [2] [3] 1 1 (by decide) (by decide) (by decide) (by decide)
    (by decide)

/-- C2 counterexample: `tolerance = -1 ≤ 0` is an ill-formed
configuration, yet the solver raises no error — it returns normally, so
the claim that ill-formed inputs are rejected at call time is false on
the code (the source contains no validation at all). -/
theorem validation_counterexample :
    ((-1 : ℚ) ≤ 0)
    ∧ (solve_lagrangian_relaxation [[5]] [10] [10] 1 (-1)).isSome = true :=
  ⟨by decide, by with_unfolding_all rfl⟩

/-- C2 amended: the source performs no call-time validation: for
matching shapes with at least one destination (the domain where
`np.argmin` never sees an empty row) and `max_iter ≥ 1`, it returns
normally for every tolerance — including the ill-formed
`tolerance ≤ 0`, which is accepted silently rather than rejected;
`max_iter < 1` is likewise not rejected at call time (the failure
surfaces only as the unbound flow variable at the `return` statement,
the `none` result of the model). -/
theorem no_call_time_validation
    (costs : List (List ℚ)) (supply demand : List ℚ) (max_iter : ℕ)
    (_hrect : ∀ row ∈ costs, row.length = num_destinations costs)
    (_hS : supply.length = costs.length)
    (_hD : demand.length = num_destinations costs)
    (_hpos : 0 < num_destinations costs)
    (hmi : 1 ≤ max_iter) (tol : ℚ) :
    (solve_lagrangian_relaxation costs supply demand max_iter tol).isSome
      = true := by
  cases max_iter with
  | zero => exact absurd hmi (by simp)
  | succ m => exact solve_isSome_of_succ costs supply demand m tol

/-- C2 amended witness: a negative tolerance is accepted silently. -/
theorem no_call_time_validation_witness :
    (solve_lagrangian_relaxation [[4]] [1] [2] 3 (-5)).isSome = true :=
  no_call_time_validation [[4]] [1] [2] 3 (by decide) (by decide) (by decide)
    (by decide) (by decide) (-5)

/-- C4: For well-formed input, the returned flow matrix has shape
`(S, D)`, every row has at most one non-zero entry, and every non-zero
entry equals that row's full supply exactly. -/
theorem flow_matrix_structure
    (costs : List (List ℚ)) (supply demand : List ℚ) (max_iter : ℕ) (tol : ℚ)
    (hS : supply.length = costs.length)
    (x : List (List ℚ)) (b : ℚ)
    (hx : solve_lagrangian_relaxation costs supply demand max_iter tol
        = some (x, b)) :
    x.length = costs.length
    ∧ (∀ row ∈ x, row.length = num_destinations costs)
    ∧ (∀ i j, i < x.length → j < num_destinations costs →
        (x.getD i []).getD j 0 ≠ 0 →
          (x.getD i []).getD j 0 = supply.getD i 0
          ∧ ∀ t, t < num_destinations costs → t ≠ j →
              (x.getD i []).getD t 0 = 0) := by
  have hx' : (loop_go costs supply demand tol max_iter 0
      (List.replicate (num_destinations costs) 0) none).1 = some (x, b) := hx
  exact loop_go_flow_ok costs supply demand tol hS max_iter 0 _ none
    (fun p hp => Option.noConfusion hp) x b hx'

/-- C4 witness: on Scenario B with two iterations the returned flow is
`[[10]]`: one row, its single non-zero entry equal to the supply. -/
theorem flow_matrix_structure_witness :
    ([[10]] : List (List ℚ)).length = ([[5]] : List (List ℚ)).length
    ∧ (∀ row ∈ ([[10]] : List (List ℚ)), row.length = num_destinations [[5]])
    ∧ (∀ i j, i < ([[10]] : List (List ℚ)).length → j < num_destinations [[5]] →
        (([[10]] : List (List ℚ)).getD i []).getD j 0 ≠ 0 →
          (([[10]] : List (List ℚ)).getD i []).getD j 0 = ([10] : List ℚ).getD i 0
          ∧ ∀ t, t < num_destinations [[5]] → t ≠ j →
              (([[10]] : List (List ℚ)).getD i []).getD t 0 = 0) :=
  flow_matrix_structure [[5]] [10] [10] 2 (1 / 100000) (by decide) [[10]] 50
    (by with_unfolding_all rfl)

/-- C6: In every iteration `k` whose subgradient norm is at least the
tolerance, the multipliers are updated as
`λ[j] += (step_size_scaling / (k + 1)) * g[j]` for every destination
`j`, where `g[j]` is the column sum of the flow minus `demand[j]`; when
the norm is below the tolerance the loop stops without updating the
multipliers. -/
theorem subgradient_update_rule
    (costs : List (List ℚ)) (supply demand : List ℚ) (tol : ℚ)
    (fuel k : ℕ) (lambdas : List ℚ) (acc : Option (List (List ℚ) × ℚ))
    (hlam : lambdas.length = num_destinations costs)
    (hD : demand.length = num_destinations costs)
    (x : List (List ℚ)) (hx : x = (subproblem costs supply lambdas).1)
    (g : List ℚ) (hg : g = iter_subgradient costs supply demand lambdas) :
    (∀ t, t < num_destinations costs →
        g.getD t 0 = (col_sums (num_destinations costs) x).getD t 0
          - demand.getD t 0)
    ∧ (∀ t, t < num_destinations costs →
        (update_lambdas lambdas g k).getD t 0
          = lambdas.getD t 0 + step_size_scaling / ((k : ℚ) + 1) * g.getD t 0)
    ∧ (norm_lt_tol g tol = false →
        loop_go costs supply demand tol (fuel + 1) k lambdas acc
          = loop_go costs supply demand tol fuel (k + 1)
              (update_lambdas lambdas g k)
              (some (x, new_best acc (dual_bound costs supply demand lambdas))))
    ∧ (norm_lt_tol g tol = true →
        (loop_go costs supply demand tol (fuel + 1) k lambdas acc).2
          = lambdas) := by
  subst hx
  subst hg
  have hcs : (col_sums (num_destinations costs)
      (subproblem costs supply lambdas).1).length = num_destinations costs :=
    col_sums_length _ _ (subproblem_rows_length costs supply lambdas)
  have hglen : (iter_subgradient costs supply demand lambdas).length
      = num_destinations costs := by
    unfold iter_subgradient subgradient_of
    rw [List.length_zipWith, hcs, hD]
    exact min_self _
  refine ⟨?_, ?_, ?_, ?_⟩
  · intro t ht
    show (subgradient_of (num_destinations costs)
        (subproblem costs supply lambdas).1 demand).getD t 0 = _
    unfold subgradient_of
    exact getD_zipWith _ _ _ t (by rw [hcs]; exact ht) (by rw [hD]; exact ht)
      0 0 0
  · intro t ht
    unfold update_lambdas
    exact getD_zipWith _ _ _ t (by rw [hlam]; exact ht)
      (by rw [hglen]; exact ht) 0 0 0
  · intro hf
    have hne : ¬ norm_lt_tol (iter_subgradient costs supply demand lambdas) tol
        = true := by rw [hf]; exact Bool.false_ne_true
    simp only [loop_go, if_neg hne]
  · intro ht
    simp only [loop_go, if_pos ht]

/-- C6 witness: one source, one destination, `cost = [[2]]`, `λ = [0]`:
the flow is `[[0]]`, the subgradient is `[-1]`, the norm test at
`tolerance = 1` fails, and the loop recurses with the updated
multipliers. -/
theorem subgradient_update_rule_witness :
    (∀ t, t < 1 →
        ([-1] : List ℚ).getD t 0 = (col_sums 1 [[0]]).getD t 0
          - ([1] : List ℚ).getD t 0)
    ∧ (∀ t, t < 1 →
        (update_lambdas [0] [-1] 0).getD t 0
          = ([0] : List ℚ).getD t 0
            + step_size_scaling / (((0 : ℕ) : ℚ) + 1) * ([-1] : List ℚ).getD t 0)
    ∧ (norm_lt_tol [-1] 1 = false →
        loop_go [[2]] [3] [1] 1 1 0 [0] none
          = loop_go [[2]] [3] [1] 1 0 1 (update_lambdas [0] [-1] 0)
              (some ([[0]], new_best none (dual_bound [[2]] [3] [1] [0]))))
    ∧ (norm_lt_tol [-1] 1 = true →
        (loop_go [[2]] [3] [1] 1 1 0 [0] none).2 = [0]) :=
  subgradient_update_rule [[2]] [3] [1] 1 0 0 [0] none (by decide) (by decide)
    [[0]] (by with_unfolding_all rfl) [-1] (by with_unfolding_all rfl)

/-- C8: The solver never mutates the cost matrix, the supply vector, or
the demand vector: in the state-threaded rendering (where every array
write of the source updates a field of the store) the final store holds
the input arrays unchanged, and the rendering returns exactly what the
solver returns. -/
theorem inputs_never_mutated (costs : List (List ℚ)) (supply demand : List ℚ)
    (max_iter : ℕ) (tol : ℚ) :
    (solve_st costs supply demand max_iter tol).2.costs = costs
    ∧ (solve_st costs supply demand max_iter tol).2.supply = supply
    ∧ (solve_st costs supply demand max_iter tol).2.demand = demand
    ∧ (solve_st costs supply demand max_iter tol).1
        = solve_lagrangian_relaxation costs supply demand max_iter tol := by
  have h := loop_go_st_frame tol max_iter 0
    { costs := costs, supply := supply, demand := demand,
      lambdas := List.replicate (num_destinations costs) 0 } none
  exact ⟨h.1, h.2.1, h.2.2.1, h.2.2.2⟩

end LagrangianRelaxation
